import Mathlib

/-!
# Verification of the DGit versioned storage engine

Shallow embedding of the DGit design-asset version-control engine:
the staging fingerprint (`internal/staging/staging.go`), the commit
pipeline (`CommitManager` in the commit package), the three-tier cache
restoration (`RestoreManager` in the restore package) and the commit
reference resolution (`cmd/restoreCmd.go`).

Bytes are modelled as `Nat` values in `[0, 256)`; file contents are
`List Nat`.  The LZ4 and Zstd codecs are external lossless stream
codecs: an artifact is modelled by the byte stream it transports, so
compression followed by decompression is the identity on that stream.
The SHA-256 hash from Go's `crypto/sha256` is modelled bit-faithfully
below so that hash values can be computed inside proofs.
-/

namespace DGit

/-! ## 32-bit word arithmetic and SHA-256 (crypto/sha256) -/

/-- 2^32, the modulus of 32-bit word arithmetic. -/
def M32 : Nat := 4294967296

/-- Right rotation of a 32-bit word by `k` bits. -/
def rotr (k x : Nat) : Nat := (x / 2 ^ k + x % 2 ^ k * 2 ^ (32 - k)) % M32

/-- Logical right shift of a 32-bit word by `k` bits. -/
def shr (k x : Nat) : Nat := x / 2 ^ k

/-- SHA-256 choice function. -/
def ch (e f g : Nat) : Nat := Nat.xor (Nat.land e f) (Nat.land (Nat.xor 4294967295 e) g)

/-- SHA-256 majority function. -/
def maj (a b c : Nat) : Nat :=
  Nat.xor (Nat.xor (Nat.land a b) (Nat.land a c)) (Nat.land b c)

/-- SHA-256 big sigma 0. -/
def bsig0 (x : Nat) : Nat := rotr 2 x ^^^ rotr 13 x ^^^ rotr 22 x

/-- SHA-256 big sigma 1. -/
def bsig1 (x : Nat) : Nat := rotr 6 x ^^^ rotr 11 x ^^^ rotr 25 x

/-- SHA-256 small sigma 0. -/
def ssig0 (x : Nat) : Nat := rotr 7 x ^^^ rotr 18 x ^^^ shr 3 x

/-- SHA-256 small sigma 1. -/
def ssig1 (x : Nat) : Nat := rotr 17 x ^^^ rotr 19 x ^^^ shr 10 x

/-- The 64 SHA-256 round constants, in decimal. -/
def K64 : List Nat :=
  [1116352408, 1899447441, 3049323471, 3921009573, 961987163, 1508970993,
   2453635748, 2870763221, 3624381080, 310598401, 607225278, 1426881987,
   1925078388, 2162078206, 2614888103, 3248222580, 3835390401, 4022224774,
   264347078, 604807628, 770255983, 1249150122, 1555081692, 1996064986,
   2554220882, 2821834349, 2952996808, 3210313671, 3336571891, 3584528711,
   113926993, 338241895, 666307205, 773529912, 1294757372, 1396182291,
   1695183700, 1986661051, 2177026350, 2456956037, 2730485921, 2820302411,
   3259730800, 3345764771, 3516065817, 3600352804, 4094571909, 275423344,
   430227734, 506948616, 659060556, 883997877, 958139571, 1322822218,
   1537002063, 1747873779, 1955562222, 2024104815, 2227730452, 2361852424,
   2428436474, 2756734187, 3204031479, 3329325298]

/-- The eight 32-bit words of a SHA-256 state. -/
structure H8 where
  a : Nat
  b : Nat
  c : Nat
  d : Nat
  e : Nat
  f : Nat
  g : Nat
  h : Nat
  deriving Repr, DecidableEq

/-- SHA-256 initial state, in decimal. -/
def sha256Init : H8 :=
  ⟨1779033703, 3144134277, 1013904242, 2773480762,
   1359893119, 2600822924, 528734635, 1541459225⟩

/-- Big-endian byte rendering of `x` on `k` bytes (most significant first). -/
def toBytesBE : Nat → Nat → List Nat
  | 0, _ => []
  | k + 1, x => toBytesBE k (x / 256) ++ [x % 256]

/-- Big-endian bytes of one 32-bit word. -/
def wordBytes (w : Nat) : List Nat :=
  [w / 16777216 % 256, w / 65536 % 256, w / 256 % 256, w % 256]

/-- SHA-256 padding: append `0x80`, zeros to 56 mod 64, then the 64-bit bit length. -/
def shaPad (m : List Nat) : List Nat :=
  let L := m.length
  let zeros := (119 - L % 64) % 64
  m ++ [0x80] ++ List.replicate zeros 0 ++ toBytesBE 8 (8 * L)

/-- Group bytes into big-endian 32-bit words (groups of four). -/
def bytesToWords : List Nat → List Nat
  | a :: b :: c :: d :: rest => (((a * 256 + b) * 256 + c) * 256 + d) :: bytesToWords rest
  | _ => []

/-- Group a word list into 16-word blocks. -/
def chunk16 : List Nat → List (List Nat)
  | w0 :: w1 :: w2 :: w3 :: w4 :: w5 :: w6 :: w7 ::
    w8 :: w9 :: w10 :: w11 :: w12 :: w13 :: w14 :: w15 :: rest =>
      [w0, w1, w2, w3, w4, w5, w6, w7, w8, w9, w10, w11, w12, w13, w14, w15] :: chunk16 rest
  | _ => []

/-- Extend a 16-word block to the 64-word SHA-256 message schedule. -/
def msgSchedule (ws : List Nat) : List Nat :=
  (List.range 48).foldl
    (fun acc i =>
      let t := i + 16
      acc ++ [(ssig1 (acc.getD (t - 2) 0) + acc.getD (t - 7) 0 +
               ssig0 (acc.getD (t - 15) 0) + acc.getD (t - 16) 0) % M32])
    ws

/-- One SHA-256 compression round over the eight-word state. -/
def shaRound (w : List Nat) (s : H8) (t : Nat) : H8 :=
  let t1 := (s.h + bsig1 s.e + ch s.e s.f s.g + K64.getD t 0 + w.getD t 0) % M32
  let t2 := (bsig0 s.a + maj s.a s.b s.c) % M32
  ⟨(t1 + t2) % M32, s.a, s.b, s.c, (s.d + t1) % M32, s.e, s.f, s.g⟩

/-- SHA-256 compression of one 16-word block into the running state. -/
def compressBlock (hs : H8) (block : List Nat) : H8 :=
  let w := msgSchedule block
  let s := (List.range 64).foldl (shaRound w) hs
  ⟨(hs.a + s.a) % M32, (hs.b + s.b) % M32, (hs.c + s.c) % M32, (hs.d + s.d) % M32,
   (hs.e + s.e) % M32, (hs.f + s.f) % M32, (hs.g + s.g) % M32, (hs.h + s.h) % M32⟩

/-- SHA-256 digest (32 bytes) of a byte list. -/
def sha256 (m : List Nat) : List Nat :=
  let hs := (chunk16 (bytesToWords (shaPad m))).foldl compressBlock sha256Init
  wordBytes hs.a ++ wordBytes hs.b ++ wordBytes hs.c ++ wordBytes hs.d ++
  wordBytes hs.e ++ wordBytes hs.f ++ wordBytes hs.g ++ wordBytes hs.h

/-! ## Hexadecimal rendering (fmt's %x verb) -/

/-- Lowercase hexadecimal digit for a value below 16: `0-9` then
`a-f` by character code. -/
def hexDigit (n : Nat) : Char :=
  if n < 10 then Char.ofNat (48 + n) else Char.ofNat (87 + n)

/-- Two hexadecimal characters for one byte. -/
def hexByte (b : Nat) : List Char := [hexDigit (b / 16), hexDigit (b % 16)]

/-- Lowercase hexadecimal characters of a byte list, two per byte. -/
def hexOfBytes (bs : List Nat) : List Char := bs.flatMap hexByte

/-- UTF-8 bytes of a string; on the ASCII strings used throughout DGit this
is the code-point list. -/
def strBytes (s : String) : List Nat := s.data.map Char.toNat

/-! ## Staging area fingerprint (`StagingArea.generateFileHash`, staging.go)

A file on disk, as the staging code observes it: its byte content and
its metadata.  The file size reported by `os.Stat` is the content
length; the modification time is kept as its RFC3339 rendering. -/

/-- A file on disk: content bytes plus the modification-time metadata. -/
structure DiskFile where
  content : List Nat
  modTime : String
  deriving Repr, DecidableEq

/-- Size reported by `os.Stat`: the length of the content. -/
def fileSize (f : DiskFile) : Nat := f.content.length

/-- The 64 KB sample bound used by `generateFileHash` (`64*1024`). -/
def fingerprintSampleSize : Nat := 65536

/-- `StagingArea.generateFileHash`: SHA-256 of the first 64 KB of the
file content (a single `file.Read` into a 64 KB buffer), hex encoded.
No metadata enters the hash. -/
def generateFileHash (f : DiskFile) : String :=
  String.mk (hexOfBytes (sha256 (f.content.take fingerprintSampleSize)))

/-! ## Commit pipeline (`CommitManager`, commit package) -/

/-- A staged file as the commit pipeline reads it (`staging.StagedFile`):
relative path, absolute path, size and modification time recorded at
stage time, plus the bytes read back from `AbsolutePath` at commit
time. -/
structure StagedFile where
  path : String
  absolutePath : String
  size : Nat
  modTime : String
  content : List Nat
  deriving Repr, DecidableEq

/-- The byte sequence fed into SHA-256 by `generateCommitHash`: the
message, the decimal version, the RFC3339 rendering of `time.Now()`,
then for each staged file its absolute path, decimal size and RFC3339
modification time. -/
def commitHashInput (msg : String) (files : List StagedFile) (ver : Nat) (now : String) :
    List Nat :=
  strBytes msg ++ strBytes (Nat.repr ver) ++ strBytes now ++
    files.flatMap fun f => strBytes f.absolutePath ++ strBytes (Nat.repr f.size) ++
      strBytes f.modTime

/-- `CommitManager.generateCommitHash`: the first 12 hexadecimal
characters of the SHA-256 digest of `commitHashInput`.  The wall-clock
reading `time.Now()` is passed explicitly as `now`. -/
def generateCommitHash (msg : String) (files : List StagedFile) (ver : Nat) (now : String) :
    String :=
  String.mk ((hexOfBytes (sha256 (commitHashInput msg files ver now))).take 12)

/-- Strategy metadata of a produced artifact (`CompressionResult`).
The compressed size of the LZ4 stream is modelled by the length of the
transported byte stream (the codec is lossless), which also fixes the
ratio; neither figure is load-bearing for any claim. -/
structure CompressionResult where
  strategy : String
  outputFile : String
  originalSize : Nat
  compressedSize : Nat
  compressionRatio : ℚ
  baseVersion : Nat
  deriving Repr, DecidableEq

/-- The hot-tier artifact byte stream written by `createLZ4UltraFast`:
every staged file's bytes streamed through the LZ4 writer back to back,
with no per-file headers ("no headers for max efficiency"). -/
def lz4Blob (files : List StagedFile) : List Nat :=
  (files.map (·.content)).flatten

/-- `CommitManager.createLZ4UltraFast`: writes `v<N>.lz4` into the hot
cache holding the header-less concatenation of all staged files, and
returns the `lz4` strategy record (no base version). -/
def createLZ4UltraFast (files : List StagedFile) (version : Nat) :
    CompressionResult × (Nat × List Nat) :=
  let blob := lz4Blob files
  (⟨"lz4", "v" ++ Nat.repr version ++ ".lz4", blob.length, blob.length,
    if blob.length = 0 then 0 else 1, 0⟩,
   (version, blob))

/-- `CommitManager.shouldUseLZ4UltraFast`: the source returns `true`
for every input ("Use LZ4 for all commits"). -/
def shouldUseLZ4UltraFast (_files : List StagedFile) (_version : Nat) : Bool := true

/-- `CommitManager.getDeltaChainLength`: walking down from `ver`,
count versions until one with a `v<N>.zip` full snapshot is met.
`zips` is the set of versions having `objects/v<N>.zip`. -/
def getDeltaChainLength (zips : List Nat) : Nat → Nat
  | 0 => 0
  | v + 1 => if (v + 1) ∈ zips then 0 else 1 + getDeltaChainLength zips v

/-- `CommitManager.shouldCreateNewSnapshot`: the chain length from
`ver` reached the configured cap (`MaxDeltaChainLength`, default 5). -/
def shouldCreateNewSnapshot (zips : List Nat) (maxChainLength ver : Nat) : Bool :=
  maxChainLength ≤ getDeltaChainLength zips ver

/-- `CommitManager.createUltraFastSnapshot`, the strategy decision
engine.  The delta computation `tryUltraFastDelta` performs bsdiff
library calls and file IO; its outcome is passed in as the oracle
`tryDelta`, so the theorems below hold for every possible delta
result.  `threshold` is `CompressionThreshold` (default 0.3). -/
def createUltraFastSnapshot (zips : List Nat) (maxChainLength : Nat) (threshold : ℚ)
    (tryDelta : Except String CompressionResult)
    (files : List StagedFile) (version prevVersion : Nat) : CompressionResult :=
  if shouldUseLZ4UltraFast files version then (createLZ4UltraFast files version).1
  else if 1 < version ∧ shouldCreateNewSnapshot zips maxChainLength prevVersion = false then
    match tryDelta with
    | .ok d => if d.compressionRatio ≤ threshold then d else (createLZ4UltraFast files version).1
    | .error _ => (createLZ4UltraFast files version).1
  else (createLZ4UltraFast files version).1

/-- Repository state observable by the commit pipeline: the set of
versions with a persisted `objects/v<N>.json` record, the content of
the `HEAD` file, and the hot and warm cache tiers (version-keyed
decompressed artifact streams). -/
structure RepoState where
  records : List Nat
  head : String
  hot : List (Nat × List Nat)
  warm : List (Nat × List Nat)
  deriving Repr, DecidableEq

/-- The freshly initialised repository. -/
def initialRepoState : RepoState := ⟨[], "", [], []⟩

/-- Lookup of a version-keyed cache entry (`v<N>.lz4` / `v<N>.zstd`). -/
def lookupVersion (entries : List (Nat × List Nat)) (v : Nat) : Option (List Nat) :=
  (entries.find? fun e => e.1 == v).map (·.2)

/-- Error outcomes of `CreateCommit` relevant to the persisted state. -/
inductive CommitError where
  | noFilesStaged
  | saveMetadataFailed
  | updateHeadFailed
  deriving Repr, DecidableEq

/-- `CommitManager.GetCurrentVersion`: the maximum `N` over the
existing `v<N>.json` records, `0` when none exist. -/
def getCurrentVersion (records : List Nat) : Nat := records.foldl max 0

/-- `CommitManager.CreateCommit`.  Mirrors the source order: reject an
empty staged set; compute `newVersion = GetCurrentVersion()+1` and the
commit hash; run the compression engine (always LZ4, see
`snapshot_always_lz4`), writing the hot-tier artifact; then
`saveCommitMetadata` (persist `v<N>.json`) and `updateHead` (write the
hash into `HEAD`).  The two `os.WriteFile` calls can fail; `saveOk`
and `headOk` say whether they succeed.  Returns the Go `(commit, err)`
pair as an `Except`, together with the resulting repository state. -/
def createCommit (st : RepoState) (msg : String) (files : List StagedFile)
    (now : String) (saveOk headOk : Bool) :
    Except CommitError (Nat × String) × RepoState :=
  match files with
  | [] => (.error .noFilesStaged, st)
  | _ :: _ =>
    let newVersion := getCurrentVersion st.records + 1
    let hash := generateCommitHash msg files newVersion now
    let snap := createLZ4UltraFast files newVersion
    let st1 : RepoState := { st with hot := snap.2 :: st.hot }
    if saveOk then
      let st2 : RepoState := { st1 with records := newVersion :: st1.records }
      if headOk then (.ok (newVersion, hash), { st2 with head := hash })
      else (.error .updateHeadFailed, st2)
    else (.error .saveMetadataFailed, st1)

/-- `N` successful commits of the same staged set starting from the
freshly initialised repository. -/
def commitN (msg : String) (files : List StagedFile) (now : String) : Nat → RepoState
  | 0 => initialRepoState
  | n + 1 => (createCommit (commitN msg files now n) msg files now true true).2

/-- `CommitManager.optimizeToWarmCache`, the body of the background
task spawned by `scheduleBackgroundOptimization`.  Non-`lz4` results
are ignored; otherwise the hot `v<N>.lz4` stream is re-encoded into
`warm/v<N>.zstd`.  Every failure returns without reporting: a missing
hot file, a failed `os.Create` (`createOk`), or a failed Zstd encoder
(`zstdOk`, which leaves the freshly created warm file empty).  The Go
function returns nothing, so the model returns only the new state. -/
def optimizeToWarmCache (st : RepoState) (version : Nat) (result : CompressionResult)
    (createOk zstdOk : Bool) : RepoState :=
  if result.strategy ≠ "lz4" then st
  else
    match lookupVersion st.hot version with
    | none => st
    | some blob =>
      if createOk then
        { st with warm := (version, if zstdOk then blob else []) :: st.warm }
      else st

/-! ## Restoration (`RestoreManager`, restore package) -/

/-- Characters after the last `/`, helper for `filepath.Base`. -/
def lastComponent : List Char → List Char → List Char
  | acc, [] => acc.reverse
  | _, '/' :: rest => lastComponent [] rest
  | acc, c :: rest => lastComponent (c :: acc) rest

/-- `filepath.Base`: trailing slashes removed, then everything after
the last remaining slash; `"."` for the empty path, `"/"` for a path
of slashes only. -/
def baseName (s : String) : String :=
  match s.data with
  | [] => "."
  | cs =>
    match (cs.reverse.dropWhile (· = '/')).reverse with
    | [] => "/"
    | cs' => String.mk (lastComponent [] cs')

/-- `strings.HasSuffix` on the character lists. -/
def strEndsWith (s suf : String) : Bool := suf.data.reverse.isPrefixOf s.data.reverse

/-- `strings.HasPrefix` on the character lists. -/
def strStartsWith (s pre : String) : Bool := pre.data.isPrefixOf s.data

/-- `strings.Contains` on the character lists. -/
def strContains (s sub : String) : Bool := s.data.tails.any fun t => sub.data.isPrefixOf t

/-- `strings.Trim(target, "/")`: slashes removed from both ends. -/
def trimSlashes (s : String) : String :=
  String.mk (((s.data.dropWhile (· = '/')).reverse.dropWhile (· = '/')).reverse)

/-- `RestoreManager.shouldRestoreFile`: the four matching strategies in
order — exact path, basename, directory (target ends in `/`), and
substring of the path. -/
def shouldRestoreFile (filePathInZip : String) (targets : List String) : Bool :=
  targets.any fun target =>
    filePathInZip == target ||
    baseName filePathInZip == baseName target ||
    (strEndsWith target "/" && strStartsWith filePathInZip target) ||
    strContains filePathInZip (trimSlashes target)

/-- Effects of a restoration: the names reported restored, the names
skipped by the pattern filter, and the files written into the working
directory with their bytes (`createFileFromData`). -/
structure RestoreOutcome where
  restoredFiles : List String
  skippedFiles : List String
  writes : List (String × List Nat)
  deriving Repr, DecidableEq

/-- The empty restoration outcome. -/
def emptyOutcome : RestoreOutcome := ⟨[], [], []⟩

/-- The per-file loop of `extractFromLZ4Cache` over the commit
metadata keys: a file not matched by a nonempty pattern list is
recorded skipped and the loop continues; the first file that is not
skipped receives the whole decompressed blob and the loop `break`s,
leaving every later metadata entry untouched. -/
def lz4ExtractLoop (blob : List Nat) (filesToRestore : List String) :
    List String → RestoreOutcome
  | [] => emptyOutcome
  | p :: rest =>
    if !filesToRestore.isEmpty && !(filesToRestore.any fun t => shouldRestoreFile p [t]) then
      let r := lz4ExtractLoop blob filesToRestore rest
      ⟨r.restoredFiles, p :: r.skippedFiles, r.writes⟩
    else ⟨[p], [], [(p, blob)]⟩

/-- `RestoreManager.extractFromLZ4Cache`: decompress the whole hot
artifact, then walk the commit metadata map and reconstruct files from
it.  `metaPaths` are the keys of `commit.Metadata` (one per staged
file); Go map iteration order is unspecified, and the model fixes one
admissible order, the staged order. -/
def extractFromLZ4Cache (metaPaths : List String) (blob : List Nat)
    (filesToRestore : List String) : RestoreOutcome :=
  lz4ExtractLoop blob filesToRestore metaPaths

/-- `RestoreManager.tryHotCacheRestore`: requires strategy `lz4` and
the `v<N>.lz4` hot cache file to exist, then extracts from it. -/
def tryHotCacheRestore (strategy : String) (version : Nat) (metaPaths : List String)
    (hot : List (Nat × List Nat)) (filesToRestore : List String) : Option RestoreOutcome :=
  if strategy = "lz4" then
    (lookupVersion hot version).map fun blob => extractFromLZ4Cache metaPaths blob filesToRestore
  else none

/-- `RestoreManager.performUltraFastRestore` at its first priority:
the hot cache is consulted first, and the lower-priority tiers (warm,
smart delta, delta chain, cold, legacy zip) are summarised by the
`fallback` oracle, which the claims below never reach. -/
def performUltraFastRestore (strategy : String) (version : Nat) (metaPaths : List String)
    (hot : List (Nat × List Nat)) (filesToRestore : List String)
    (fallback : RestoreOutcome) : RestoreOutcome :=
  match tryHotCacheRestore strategy version metaPaths hot filesToRestore with
  | some r => r
  | none => fallback

/-- Commit the staged set into the fresh repository and immediately
restore that commit.  The commit always stores with strategy `lz4`
(`snapshot_always_lz4`), so the restoration is served by the hot-tier
LZ4 cache it just wrote. -/
def commitThenRestoreHot (files : List StagedFile) (msg now : String)
    (filesToRestore : List String) : RestoreOutcome :=
  let out := createCommit initialRepoState msg files now true true
  match out.1 with
  | .ok (v, _) =>
    performUltraFastRestore "lz4" v (files.map (·.path)) out.2.hot filesToRestore emptyOutcome
  | .error _ => emptyOutcome

/-! ## Commit reference resolution (`findTargetCommit`, cmd/restoreCmd.go) -/

/-- A commit as the log manager surfaces it for reference lookup. -/
structure LogCommit where
  hash : String
  version : Nat
  deriving Repr, DecidableEq

/-- Hex digit test from `findTargetCommit`
(`0-9`, `a-f`, `A-F`). -/
def isHexChar (c : Char) : Bool :=
  ('0' ≤ c && c ≤ '9') || ('a' ≤ c && c ≤ 'f') || ('A' ≤ c && c ≤ 'F')

/-- The hash-candidate test of `findTargetCommit`: length between 4
and 64 and hex characters only. -/
def isHashCandidate (ref : String) : Bool :=
  4 ≤ ref.data.length && ref.data.length ≤ 64 && ref.data.all isHexChar

/-- `LogManager.GetCommitByHash`: first commit record (in directory
order, the order of `commits`) whose hash has `h` as a prefix. -/
def getCommitByHash (commits : List LogCommit) (h : String) : Option LogCommit :=
  commits.find? fun c => strStartsWith c.hash h

/-- `LogManager.GetCommit` on an integer version: the record stored in
`objects/v<version>.json`; negative versions never have one. -/
def getCommitInt (commits : List LogCommit) (v : Int) : Option LogCommit :=
  commits.find? fun c => (c.version : Int) == v

/-- Digit accumulation for `strconv.Atoi`. -/
def parseDigits : Option Nat → List Char → Option Nat
  | acc, [] => acc
  | some n, c :: rest =>
      if c.isDigit then parseDigits (some (n * 10 + (c.toNat - 48))) rest else none
  | none, _ :: _ => none

/-- `strconv.Atoi`: optional sign, at least one digit, and the value
must fit in a 64-bit `int` (otherwise `ErrRange`). -/
def atoi (s : String) : Option Int :=
  let signed : Bool × List Char :=
    match s.data with
    | '-' :: rest => (true, rest)
    | '+' :: rest => (false, rest)
    | cs => (false, cs)
  match signed.2 with
  | [] => none
  | cs =>
    match parseDigits (some 0) cs with
    | none => none
    | some n =>
      if signed.1 then if n ≤ 9223372036854775808 then some (-(n : Int)) else none
      else if n ≤ 9223372036854775807 then some (n : Int) else none

/-- `strings.TrimPrefix(ref, "v")`. -/
def stripV (s : String) : String :=
  match s.data with
  | 'v' :: rest => String.mk rest
  | _ => s

/-- `findTargetCommit` (cmd/restoreCmd.go): hash-prefix lookup is
attempted first whenever the reference looks like a hash (4–64 hex
characters); on a miss, or for non-hash-looking references, the
reference is parsed as a version number after stripping a `v`
prefix. -/
def findTargetCommit (commits : List LogCommit) (ref : String) : Option LogCommit :=
  let tryVersion : Option LogCommit :=
    match atoi (stripV ref) with
    | some v => getCommitInt commits v
    | none => none
  if isHashCandidate ref then
    match getCommitByHash commits ref with
    | some c => some c
    | none => tryVersion
  else tryVersion

/-! ## Theorems -/

/-- C10: committing with an empty staged file set fails cleanly: for
every repository state, message, clock reading and write-oracle
outcome, `CreateCommit` with zero staged files returns the
`no files staged` error and leaves the state untouched — no record, no
artifact in any tier, no version change, no `HEAD` change. -/
theorem createCommit_empty_staging_noop (st : RepoState) (msg now : String)
    (saveOk headOk : Bool) :
    createCommit st msg [] now saveOk headOk = (.error .noFilesStaged, st) := rfl

/-- C6 (amended): `createUltraFastSnapshot` selects the LZ4
fast-snapshot strategy for every input — whatever the existing zip
snapshots, chain cap, threshold and delta outcome — because
`shouldUseLZ4UltraFast` returns `true` unconditionally; the resulting
record never carries a base version. -/
theorem snapshot_always_lz4 (zips : List Nat) (maxChainLength : Nat) (threshold : ℚ)
    (tryDelta : Except String CompressionResult) (files : List StagedFile)
    (version prevVersion : Nat) :
    (createUltraFastSnapshot zips maxChainLength threshold tryDelta
        files version prevVersion).strategy = "lz4" ∧
    (createUltraFastSnapshot zips maxChainLength threshold tryDelta
        files version prevVersion).baseVersion = 0 :=
  ⟨rfl, rfl⟩

/-- C6 (counterexample): a commit situation in which a prior version
exists (version 2 over 1), the delta chain from the nearest snapshot
is below the cap of 5, and the candidate binary delta against the
ancestor beats the 0.3 compression threshold with base version 1 —
yet the selected strategy is `lz4` with no base version, not the
delta. -/
theorem delta_conditions_still_lz4_example :
    let files : List StagedFile := [⟨"a.ai", "/w/a.ai", 1, "t1", [7]⟩]
    let dRes : CompressionResult := ⟨"bsdiff", "v2_from_v1.bsdiff", 10, 1, 1 / 10, 1⟩
    (1 : Nat) < 2 ∧
    getDeltaChainLength [] 1 < 5 ∧
    dRes.compressionRatio ≤ 3 / 10 ∧
    dRes.baseVersion = 1 ∧
    (createUltraFastSnapshot [] 5 (3 / 10) (.ok dRes) files 2 1).strategy = "lz4" ∧
    (createUltraFastSnapshot [] 5 (3 / 10) (.ok dRes) files 2 1).baseVersion = 0 := by
  refine ⟨by decide, by decide, by norm_num, rfl, rfl, rfl⟩

/-- C8: the background warm-cache optimization task is strictly
additive and silent: for every state and every IO outcome it leaves
the hot tier, the commit records and `HEAD` untouched, and at most
prepends one new warm-tier entry for its own version; the function
returns no error to the triggering commit. -/
theorem optimizeToWarmCache_frame (st : RepoState) (version : Nat)
    (result : CompressionResult) (createOk zstdOk : Bool) :
    (optimizeToWarmCache st version result createOk zstdOk).hot = st.hot ∧
    (optimizeToWarmCache st version result createOk zstdOk).records = st.records ∧
    (optimizeToWarmCache st version result createOk zstdOk).head = st.head ∧
    ((optimizeToWarmCache st version result createOk zstdOk).warm = st.warm ∨
      ∃ bs, (optimizeToWarmCache st version result createOk zstdOk).warm =
        (version, bs) :: st.warm) := by
  unfold optimizeToWarmCache
  split
  · simp
  · cases h : lookupVersion st.hot version with
    | none => simp [h]
    | some blob =>
      simp only [h]
      cases createOk with
      | false => simp
      | true => exact ⟨rfl, rfl, rfl, Or.inr ⟨_, rfl⟩⟩

/-- A 65537-byte zero file, modified at one time. -/
def sampleFileA : DiskFile := ⟨List.replicate 65537 0, "2024-01-01T00:00:00Z"⟩

/-- A 70000-byte zero file, modified at another time. -/
def sampleFileB : DiskFile := ⟨List.replicate 70000 0, "2024-06-01T12:00:00Z"⟩

/-- C9 (counterexample): two files whose metadata differ — sizes 65537
and 70000 bytes, distinct modification times — receive the same
content fingerprint, because `generateFileHash` hashes only the first
64 KB of content and reads no metadata at all. -/
theorem fingerprint_ignores_metadata_example :
    fileSize sampleFileA ≠ fileSize sampleFileB ∧
    sampleFileA.modTime ≠ sampleFileB.modTime ∧
    generateFileHash sampleFileA = generateFileHash sampleFileB := by
  refine ⟨?_, by decide, ?_⟩
  · rw [fileSize, fileSize, sampleFileA, sampleFileB,
      List.length_replicate, List.length_replicate]
    omega
  · have h1 : (List.replicate 65537 (0 : Nat)).take fingerprintSampleSize =
        List.replicate 65536 0 := by
      rw [fingerprintSampleSize, List.take_replicate]
      norm_num
    have h2 : (List.replicate 70000 (0 : Nat)).take fingerprintSampleSize =
        List.replicate 65536 0 := by
      rw [fingerprintSampleSize, List.take_replicate]
      norm_num
    simp only [generateFileHash, sampleFileA, sampleFileB, h1, h2]

/-- C9 (amended): the content fingerprint is determined by the first
64 KB of the file's content alone: any two files agreeing on that
prefix — whatever their sizes, modification times or later bytes —
receive the same fingerprint. -/
theorem fingerprint_prefix_determined (f1 f2 : DiskFile)
    (h : f1.content.take fingerprintSampleSize = f2.content.take fingerprintSampleSize) :
    generateFileHash f1 = generateFileHash f2 := by
  unfold generateFileHash
  rw [h]

/-- Concrete instance of `fingerprint_prefix_determined`. -/
theorem fingerprint_prefix_determined_witness :
    (DiskFile.content ⟨[], "t1"⟩).take fingerprintSampleSize =
      (DiskFile.content ⟨[], "t2"⟩).take fingerprintSampleSize ∧
    generateFileHash ⟨[], "t1"⟩ = generateFileHash ⟨[], "t2"⟩ :=
  ⟨rfl, fingerprint_prefix_determined ⟨[], "t1"⟩ ⟨[], "t2"⟩ rfl⟩

/-- The version list `[n, n-1, …, 1]`, the record set after `n`
successful commits. -/
def countdown : Nat → List Nat
  | 0 => []
  | n + 1 => (n + 1) :: countdown n

/-- Membership in `countdown n` is the interval `1..n`. -/
theorem mem_countdown {v n : Nat} : v ∈ countdown n ↔ 1 ≤ v ∧ v ≤ n := by
  induction n with
  | zero => simp only [countdown, List.not_mem_nil, false_iff]; omega
  | succ n ih => simp only [countdown, List.mem_cons, ih]; omega

/-- Folding `max` over a list bounded by the accumulator returns it. -/
theorem foldl_max_of_le {l : List Nat} : ∀ {a : Nat}, (∀ x ∈ l, x ≤ a) → l.foldl max a = a := by
  induction l with
  | nil => intro a _; rfl
  | cons x xs ih =>
    intro a h
    rw [List.foldl_cons, Nat.max_eq_left (h x (List.mem_cons_self x xs))]
    exact ih fun y hy => h y (List.mem_cons_of_mem x hy)

/-- After `n` commits, the directory scan of `GetCurrentVersion`
reports `n`. -/
theorem getCurrentVersion_countdown (n : Nat) : getCurrentVersion (countdown n) = n := by
  cases n with
  | zero => rfl
  | succ n =>
    rw [getCurrentVersion, countdown, List.foldl_cons, Nat.zero_max]
    exact foldl_max_of_le fun x hx =>
      Nat.le_succ_of_le (mem_countdown.1 hx).2

/-- A successful commit of a nonempty staged set prepends
`GetCurrentVersion() + 1` to the record list. -/
theorem createCommit_ok_records (st : RepoState) (msg now : String) (f : StagedFile)
    (fs : List StagedFile) :
    (createCommit st msg (f :: fs) now true true).2.records =
      (getCurrentVersion st.records + 1) :: st.records := rfl

/-- A successful commit of a nonempty staged set returns version
`GetCurrentVersion() + 1` and the commit hash. -/
theorem createCommit_ok_result (st : RepoState) (msg now : String) (f : StagedFile)
    (fs : List StagedFile) :
    (createCommit st msg (f :: fs) now true true).1 =
      .ok (getCurrentVersion st.records + 1,
        generateCommitHash msg (f :: fs) (getCurrentVersion st.records + 1) now) := rfl

/-- The record list after `n` commits is exactly `countdown n`. -/
theorem commitN_records (msg now : String) (f : StagedFile) (fs : List StagedFile) :
    ∀ n, (commitN msg (f :: fs) now n).records = countdown n := by
  intro n
  induction n with
  | zero => rfl
  | succ n ih =>
    show (createCommit (commitN msg (f :: fs) now n) msg (f :: fs) now true true).2.records = _
    rw [createCommit_ok_records, ih, getCurrentVersion_countdown]
    rfl

/-- C7: version numbers are dense and strictly increasing.  Committing
`n` times from an empty repository yields records for exactly the
versions `1..n` (the list `[n, …, 1]`, gapless), and the next commit is
assigned version `n + 1`, the previous maximum plus one. -/
theorem commit_versions_dense (msg now : String) (files : List StagedFile)
    (hf : files ≠ []) (n : Nat) :
    (commitN msg files now n).records = countdown n ∧
    (∀ v, v ∈ (commitN msg files now n).records ↔ 1 ≤ v ∧ v ≤ n) ∧
    (createCommit (commitN msg files now n) msg files now true true).1 =
      .ok (n + 1, generateCommitHash msg files (n + 1) now) := by
  cases files with
  | nil => exact absurd rfl hf
  | cons f fs =>
    refine ⟨commitN_records msg now f fs n, ?_, ?_⟩
    · intro v
      rw [commitN_records msg now f fs n]
      exact mem_countdown
    · rw [createCommit_ok_result, commitN_records msg now f fs n,
        getCurrentVersion_countdown]

/-- Concrete instance of `commit_versions_dense`: two commits of a
one-file set produce versions `[2, 1]`. -/
theorem commit_versions_dense_witness :
    ([(⟨"a.ai", "/w/a.ai", 1, "t1", [7]⟩ : StagedFile)] ≠ ([] : List StagedFile)) ∧
    ((commitN "m" [⟨"a.ai", "/w/a.ai", 1, "t1", [7]⟩] "t" 2).records = countdown 2 ∧
     (∀ v, v ∈ (commitN "m" [⟨"a.ai", "/w/a.ai", 1, "t1", [7]⟩] "t" 2).records ↔
        1 ≤ v ∧ v ≤ 2) ∧
     (createCommit (commitN "m" [⟨"a.ai", "/w/a.ai", 1, "t1", [7]⟩] "t" 2) "m"
        [⟨"a.ai", "/w/a.ai", 1, "t1", [7]⟩] "t" true true).1 =
      .ok (3, generateCommitHash "m" [⟨"a.ai", "/w/a.ai", 1, "t1", [7]⟩] 3 "t")) :=
  ⟨by decide, commit_versions_dense "m" "t" [⟨"a.ai", "/w/a.ai", 1, "t1", [7]⟩] (by decide) 2⟩

/-- C3 (counterexample): when the record write succeeds but the `HEAD`
write fails, `CreateCommit` reports an error even though the new
`v1.json` record was already persisted — a partial state the claim
rules out. -/
theorem createCommit_partial_state_example :
    (createCommit initialRepoState "init" [⟨"a.ai", "/w/a.ai", 1, "t1", [7]⟩]
        "now" true false).1 = .error .updateHeadFailed ∧
    (createCommit initialRepoState "init" [⟨"a.ai", "/w/a.ai", 1, "t1", [7]⟩]
        "now" true false).2.records = [1] ∧
    initialRepoState.records = [] ∧
    (createCommit initialRepoState "init" [⟨"a.ai", "/w/a.ai", 1, "t1", [7]⟩]
        "now" true false).2.head = initialRepoState.head :=
  ⟨rfl, rfl, rfl, rfl⟩

/-- C3 (amended): on any error `HEAD` is unchanged, and on any error
other than a failed `HEAD` write the record list is unchanged as well;
on success the new record is persisted, `HEAD` holds the new hash and
the version is the previous maximum plus one.  The one partial outcome
is a failed `HEAD` write after a persisted record, reported as an
error. -/
theorem createCommit_error_head_unchanged (st : RepoState) (msg now : String)
    (files : List StagedFile) (saveOk headOk : Bool) :
    (∀ e, (createCommit st msg files now saveOk headOk).1 = .error e →
      (createCommit st msg files now saveOk headOk).2.head = st.head) ∧
    (∀ e, (createCommit st msg files now saveOk headOk).1 = .error e →
      e ≠ .updateHeadFailed →
      (createCommit st msg files now saveOk headOk).2.records = st.records) ∧
    (∀ v h, (createCommit st msg files now saveOk headOk).1 = .ok (v, h) →
      (createCommit st msg files now saveOk headOk).2.records = v :: st.records ∧
      (createCommit st msg files now saveOk headOk).2.head = h ∧
      v = getCurrentVersion st.records + 1) := by
  cases files with
  | nil =>
    exact ⟨fun e _ => rfl, fun e _ _ => rfl, fun v h hok => Except.noConfusion hok⟩
  | cons f fs =>
    cases saveOk with
    | false =>
      exact ⟨fun e _ => rfl, fun e _ _ => rfl, fun v h hok => Except.noConfusion hok⟩
    | true =>
      cases headOk with
      | false =>
        refine ⟨fun e _ => rfl, fun e he hne => ?_, fun v h hok => Except.noConfusion hok⟩
        injection he with he'
        exact absurd he'.symm hne
      | true =>
        refine ⟨fun e he => Except.noConfusion he, fun e he _ => Except.noConfusion he,
          fun v h hok => ?_⟩
        injection hok with h1
        injection h1 with hv hh
        exact ⟨by rw [← hv]; rfl, by rw [← hh]; rfl, hv.symm⟩

/-- Concrete instance of `createCommit_error_head_unchanged`: the
failed-`HEAD` commit above leaves `HEAD` untouched. -/
theorem createCommit_error_head_unchanged_witness :
    (createCommit initialRepoState "init" [⟨"a.ai", "/w/a.ai", 1, "t1", [7]⟩]
        "now" true false).1 = .error .updateHeadFailed ∧
    (createCommit initialRepoState "init" [⟨"a.ai", "/w/a.ai", 1, "t1", [7]⟩]
        "now" true false).2.head = initialRepoState.head :=
  ⟨rfl,
    (createCommit_error_head_unchanged initialRepoState "init" "now"
      [⟨"a.ai", "/w/a.ai", 1, "t1", [7]⟩] true false).1 .updateHeadFailed rfl⟩

/-- The two-commit repository used for reference resolution: version 1
has a hash with the all-digit prefix `1234`, and version 1234 also
exists. -/
def refCommits : List LogCommit := [⟨"1234aaaaaaaa", 1⟩, ⟨"bbbbbbbbbbbb", 1234⟩]

/-- C4 (counterexample): the all-digit reference `"1234"` is 4–64
characters of valid hex, so `findTargetCommit` tries the hash-prefix
lookup first and returns version 1 (whose hash starts with `1234`) —
not version 1234, which exists. -/
theorem numeric_ref_resolved_as_hash_example :
    "1234".data.all Char.isDigit = true ∧
    findTargetCommit refCommits "1234" = some ⟨"1234aaaaaaaa", 1⟩ ∧
    getCommitInt refCommits 1234 = some ⟨"bbbbbbbbbbbb", 1234⟩ ∧
    (1 : Nat) ≠ 1234 := by decide

/-- An all-digit string does not start with `v`, so `TrimPrefix`
leaves it unchanged. -/
theorem stripV_of_digits (s : String) (h : s.data.all Char.isDigit = true) :
    stripV s = s := by
  unfold stripV
  split
  · next heq =>
    rw [heq, List.all_cons] at h
    exact absurd (Bool.and_elim_left h) (by decide)
  · rfl

/-- C4 (amended): an all-digit reference resolves as a version number
exactly when it is not treated as a hash candidate (shorter than 4 or
longer than 64 characters) or when no stored commit hash has it as a
prefix; in that case the commit looked up is the one whose version is
the parsed number. -/
theorem numeric_ref_version_resolution (commits : List LogCommit) (ref : String) (v : Int)
    (hd : ref.data.all Char.isDigit = true)
    (hp : atoi ref = some v)
    (hmiss : isHashCandidate ref = false ∨ getCommitByHash commits ref = none) :
    findTargetCommit commits ref = getCommitInt commits v := by
  unfold findTargetCommit
  rw [stripV_of_digits ref hd, hp]
  rcases hmiss with hm | hm
  · simp [hm]
  · by_cases hc : isHashCandidate ref
    · simp [hc, hm]
    · simp [hc]

/-- Concrete instance of `numeric_ref_version_resolution`: the short
reference `"7"` is below the hash-candidate length and resolves by
version. -/
theorem numeric_ref_version_resolution_witness :
    "7".data.all Char.isDigit = true ∧
    atoi "7" = some 7 ∧
    (isHashCandidate "7" = false ∨ getCommitByHash refCommits "7" = none) ∧
    findTargetCommit refCommits "7" = getCommitInt refCommits 7 :=
  ⟨by decide, by decide, Or.inl (by decide),
    numeric_ref_version_resolution refCommits "7" 7 (by decide) (by decide)
      (Or.inl (by decide))⟩

/-- A one-byte `a.ai` staged at the working-tree root. -/
def fileA : StagedFile := ⟨"a.ai", "/w/a.ai", 1, "2024-01-01T00:00:00Z", [1]⟩

/-- A one-byte `b.ai` staged at the working-tree root. -/
def fileB : StagedFile := ⟨"b.ai", "/w/b.ai", 1, "2024-01-01T00:00:00Z", [2]⟩

/-- C1 (code defect): committing the two-file set `{a.ai ↦ [1],
b.ai ↦ [2]}` and restoring the commit writes exactly one file, `a.ai`,
and gives it the concatenated blob `[1, 2]` — bytes identical to
neither staged file.  The hot artifact holds every file's bytes
back to back with no headers, and the hot-tier extraction writes the
whole decompressed blob to the first metadata entry and stops. -/
theorem roundtrip_two_file_commit_breaks :
    (commitThenRestoreHot [fileA, fileB] "init" "now" []).writes = [("a.ai", [1, 2])] ∧
    fileA.path = "a.ai" ∧ fileA.content = [1] ∧ ([1, 2] : List Nat) ≠ [1] ∧
    fileB.content = [2] ∧ ([1, 2] : List Nat) ≠ [2] :=
  ⟨rfl, rfl, rfl, by decide, rfl, by decide⟩

/-- C2 (code defect): restoring the same two-file commit with an empty
file-pattern list via the hot-tier LZ4 cache reports a single restored
file, not both files recorded in the commit. -/
theorem restore_all_two_file_commit_breaks :
    ([fileA, fileB].map (·.path)) = ["a.ai", "b.ai"] ∧
    (commitThenRestoreHot [fileA, fileB] "init" "now" []).restoredFiles = ["a.ai"] ∧
    (commitThenRestoreHot [fileA, fileB] "init" "now" []).skippedFiles = [] ∧
    (["a.ai"] : List String) ≠ ["a.ai", "b.ai"] :=
  ⟨rfl, rfl, rfl, by decide⟩

set_option maxRecDepth 40000 in
/-- C5 (counterexample): two `generateCommitHash` invocations with the
same message, the same version and the same per-file path, size and
modification time — the clock having moved by one second between
them — produce different hashes, because the hash input also contains
`time.Now()`. -/
theorem commit_hash_time_dependent_example :
    generateCommitHash "init" [fileA] 1 "2024-01-02T00:00:00Z" ≠
      generateCommitHash "init" [fileA] 1 "2024-01-02T00:00:01Z" := by
  decide

/-- Per-file hash input from the metadata projection only. -/
theorem commitHashInput_proj (files : List StagedFile) :
    (files.flatMap fun f => strBytes f.absolutePath ++ strBytes (Nat.repr f.size) ++
        strBytes f.modTime) =
      (files.map fun f => (f.absolutePath, f.size, f.modTime)).flatMap
        fun m => strBytes m.1 ++ strBytes (Nat.repr m.2.1) ++ strBytes m.2.2 := by
  induction files with
  | nil => rfl
  | cons f fs ih => simp only [List.flatMap_cons, List.map_cons, ih]

/-- A SHA-256 digest always has 32 bytes. -/
theorem sha256_length (m : List Nat) : (sha256 m).length = 32 := by
  unfold sha256 wordBytes
  simp

/-- Hex encoding yields two characters per byte. -/
theorem hexOfBytes_length (bs : List Nat) : (hexOfBytes bs).length = 2 * bs.length := by
  induction bs with
  | nil => rfl
  | cons b bs ih =>
    simp only [hexOfBytes, List.flatMap_cons] at *
    simp [hexByte, ih]
    omega

/-- C5 (amended): the commit hash is a 12-character string determined
by the message, the version, the wall-clock reading and each staged
file's absolute path, size and modification time — and by nothing
else: staged sets with identical per-file metadata, whatever their
contents or relative paths, hash identically at the same clock
reading. -/
theorem commit_hash_metadata_determined (msg now : String) (ver : Nat)
    (files1 files2 : List StagedFile)
    (h : (files1.map fun f => (f.absolutePath, f.size, f.modTime)) =
         (files2.map fun f => (f.absolutePath, f.size, f.modTime))) :
    generateCommitHash msg files1 ver now = generateCommitHash msg files2 ver now ∧
    (generateCommitHash msg files1 ver now).length = 12 := by
  constructor
  · unfold generateCommitHash commitHashInput
    rw [commitHashInput_proj files1, commitHashInput_proj files2, h]
  · show (String.mk _).length = 12
    show (List.length _) = 12
    rw [List.length_take, hexOfBytes_length, sha256_length]
    omega

/-- Concrete instance of `commit_hash_metadata_determined`: replacing
a staged file's bytes while keeping its metadata leaves the commit
hash unchanged. -/
theorem commit_hash_metadata_determined_witness :
    (([⟨"a.ai", "/w/a.ai", 1, "t", [1, 2, 3]⟩] : List StagedFile).map
        fun f => (f.absolutePath, f.size, f.modTime)) =
      (([⟨"a.ai", "/w/a.ai", 1, "t", [9, 9, 9]⟩] : List StagedFile).map
        fun f => (f.absolutePath, f.size, f.modTime)) ∧
    (generateCommitHash "m" [⟨"a.ai", "/w/a.ai", 1, "t", [1, 2, 3]⟩] 1 "t" =
       generateCommitHash "m" [⟨"a.ai", "/w/a.ai", 1, "t", [9, 9, 9]⟩] 1 "t" ∧
     (generateCommitHash "m" [⟨"a.ai", "/w/a.ai", 1, "t", [1, 2, 3]⟩] 1 "t").length = 12) :=
  ⟨by decide,
    commit_hash_metadata_determined "m" "t" 1
      [⟨"a.ai", "/w/a.ai", 1, "t", [1, 2, 3]⟩]
      [⟨"a.ai", "/w/a.ai", 1, "t", [9, 9, 9]⟩] (by decide)⟩

end DGit
